import Mathlib

/-!
Verification of the SpaceTravel software renderer core.

Shallow embedding conventions:
* `f32` values are idealized as exact rationals (`ℚ`).  The only non-finite
  float value the framebuffer code manipulates is `f32::INFINITY` (the depth
  clear value), so depths are embedded as `Option ℚ` with `none` standing for
  `+∞`.
* `u32` pixel colors are carried as `ℕ`; the framebuffer never performs
  arithmetic on them, it only stores and copies them.
* External crate functions that compute transcendental / irrational float
  operations (`sin`, `sqrt`, `atan2`, `powf`, the `StdRng` draw and the
  `FastNoiseLite` noise oracle) are abstracted as explicit function
  parameters, so every theorem quantifies over their behaviour.
-/

namespace SpaceTravel

/-! ### Depth values (`f32` depths, `none` = `f32::INFINITY`) -/

/-- A depth value: `none` models `f32::INFINITY`, `some q` a finite depth. -/
abbrev Depth := Option ℚ

/-- `depthGt stored new` embeds the `f32` comparison
`stored > new` used by `Framebuffer::point` (`self.zbuffer[index] > depth`),
restricted to finite values and `+∞`. -/
def depthGt : Depth → Depth → Bool
  | none, none => false
  | none, some _ => true
  | some _, none => false
  | some a, some b => decide (b < a)

/-- `depthLe a b` : depth `a` is nearer than or equal to depth `b`
(`none` is `+∞`, the farthest value). -/
def depthLe : Depth → Depth → Bool
  | _, none => true
  | none, some _ => false
  | some a, some b => decide (a ≤ b)

theorem depthLe_refl (a : Depth) : depthLe a a = true := by
  cases a <;> simp [depthLe]

theorem depthLe_trans {a b c : Depth} (h1 : depthLe a b = true)
    (h2 : depthLe b c = true) : depthLe a c = true := by
  cases a <;> cases b <;> cases c <;> simp_all [depthLe] <;> linarith

/-! ### `src/framebuffer.rs` -/

/-- The `Framebuffer` struct from `framebuffer.rs`: persistent background
layer, per-frame color buffer and per-frame depth buffer. -/
structure Framebuffer where
  width : ℕ
  height : ℕ
  buffer : List ℕ
  zbuffer : List Depth
  background_color : ℕ
  current_color : ℕ
  background_buffer : List ℕ
deriving DecidableEq

namespace Framebuffer

/-- `Framebuffer::new(width, height)`. -/
def new (width height : ℕ) : Framebuffer :=
  { width := width
    height := height
    buffer := List.replicate (width * height) 0
    zbuffer := List.replicate (width * height) none
    background_color := 0x151515
    current_color := 0xFFFFFF
    background_buffer := List.replicate (width * height) 0x151515 }

/-- `Framebuffer::clear`: copy the background layer verbatim into the color
buffer (`copy_from_slice`, which requires the two buffers to have equal
length) and reset every depth slot to `+∞`. -/
def clear (fb : Framebuffer) : Framebuffer :=
  { fb with
    buffer := fb.background_buffer
    zbuffer := List.replicate fb.zbuffer.length none }

/-- `Framebuffer::point(x, y, depth)`: bounds-check, then depth-test
(`zbuffer[index] > depth`) and conditionally write `current_color` and the
new depth. -/
def point (fb : Framebuffer) (x y : ℕ) (depth : Depth) : Framebuffer :=
  if x < fb.width ∧ y < fb.height then
    let index := y * fb.width + x
    if depthGt (fb.zbuffer.getD index none) depth then
      { fb with
        buffer := fb.buffer.set index fb.current_color
        zbuffer := fb.zbuffer.set index depth }
    else fb
  else fb

/-- `Framebuffer::set_background_color`. -/
def set_background_color (fb : Framebuffer) (color : ℕ) : Framebuffer :=
  { fb with background_color := color }

/-- `Framebuffer::set_current_color`. -/
def set_current_color (fb : Framebuffer) (color : ℕ) : Framebuffer :=
  { fb with current_color := color }

/-- `Framebuffer::set_background_star`: bounds-checked write into the
persistent background layer; never touches the depth buffer. -/
def set_background_star (fb : Framebuffer) (x y : ℕ) (color : ℕ) :
    Framebuffer :=
  if x < fb.width ∧ y < fb.height then
    { fb with background_buffer := fb.background_buffer.set (y * fb.width + x) color }
  else fb

end Framebuffer

/-- The mutating operations `framebuffer.rs` exposes between two `clear()`
calls (every public method other than `clear` itself). -/
inductive FbOp
  | point (x y : ℕ) (d : Depth)
  | setCurrentColor (c : ℕ)
  | setBackgroundColor (c : ℕ)
  | setBackgroundStar (x y c : ℕ)
deriving DecidableEq

/-- Apply one framebuffer operation. -/
def applyOp (fb : Framebuffer) : FbOp → Framebuffer
  | .point x y d => fb.point x y d
  | .setCurrentColor c => fb.set_current_color c
  | .setBackgroundColor c => fb.set_background_color c
  | .setBackgroundStar x y c => fb.set_background_star x y c

/-- Apply a sequence of framebuffer operations (one frame's worth of calls
between two `clear()`s). -/
def applyOps (fb : Framebuffer) (ops : List FbOp) : Framebuffer :=
  ops.foldl applyOp fb

/-- The sequence of writes targeting one pixel: repeatedly
`set_current_color c` then `point x y (some d)`, exactly as the render loop
does per fragment. -/
def writeSeq (fb : Framebuffer) (x y : ℕ) : List (ℕ × ℚ) → Framebuffer
  | [] => fb
  | (c, d) :: ws => writeSeq ((fb.set_current_color c).point x y (some d)) x y ws

/-- The evolution of a single pixel cell (color, depth) under the depth-tested
writes of `point`. -/
def cellFold : ℕ × Depth → List (ℕ × ℚ) → ℕ × Depth
  | cd, [] => cd
  | (c, D), (c', d) :: ws =>
      if depthGt D (some d) then cellFold (c', some d) ws else cellFold (c, D) ws

/-- Minimum depth of a write list (`none` when the list is empty). -/
def minD : List (ℕ × ℚ) → Option ℚ
  | [] => none
  | (_, d) :: ws =>
      match minD ws with
      | none => some d
      | some m => some (min d m)

/-- The color of the first write achieving depth `m`. -/
def firstAt (ws : List (ℕ × ℚ)) (m : ℚ) : Option ℕ :=
  (ws.find? (fun p => p.2 = m)).map Prod.fst

theorem depthLe_of_gt {D d : Depth} (h : depthGt D d = true) :
    depthLe d D = true := by
  cases D <;> cases d <;> simp_all [depthGt, depthLe] <;> linarith

/-- An in-bounds pixel coordinate yields an in-bounds linear index. -/
theorem pixel_index_lt {x y w h : ℕ} (hx : x < w) (hy : y < h) :
    y * w + x < w * h := by
  calc y * w + x < y * w + w := by omega
    _ = (y + 1) * w := by ring
    _ ≤ h * w := Nat.mul_le_mul_right w hy
    _ = w * h := Nat.mul_comm h w

/-- A single framebuffer operation never moves any stored depth farther. -/
theorem applyOp_zbuffer_le (fb : Framebuffer) (op : FbOp) (i : ℕ) :
    depthLe ((applyOp fb op).zbuffer.getD i none) (fb.zbuffer.getD i none)
      = true := by
  cases op with
  | setCurrentColor c => exact depthLe_refl _
  | setBackgroundColor c => exact depthLe_refl _
  | setBackgroundStar x y c =>
      simp only [applyOp, Framebuffer.set_background_star]
      split <;> exact depthLe_refl _
  | point x y d =>
      simp only [applyOp, Framebuffer.point]
      split
      · split
        · rename_i hin hgt
          simp only [List.getD_eq_getElem?_getD, List.getElem?_set]
          by_cases hix : y * fb.width + x = i
          · subst hix
            simp only [if_pos rfl]
            by_cases hlen : y * fb.width + x < fb.zbuffer.length
            · simp only [if_pos hlen, Option.getD_some]
              have hgt' : depthGt (fb.zbuffer[y * fb.width + x]?.getD none) d
                  = true := by
                simpa [List.getD_eq_getElem?_getD] using hgt
              exact depthLe_of_gt hgt'
            · simp only [if_neg hlen]
              rw [List.getElem?_eq_none (by omega)]
              simp [depthLe]
          · simp only [if_neg hix]
            exact depthLe_refl _
        · exact depthLe_refl _
      · exact depthLe_refl _

/-- Across any sequence of framebuffer operations (one frame between two
`clear()` calls), the stored depth at every index never increases. -/
theorem applyOps_zbuffer_le (ops : List FbOp) :
    ∀ (fb : Framebuffer) (i : ℕ),
      depthLe ((applyOps fb ops).zbuffer.getD i none)
        (fb.zbuffer.getD i none) = true := by
  induction ops with
  | nil => intro fb i; exact depthLe_refl _
  | cons op ops ih =>
      intro fb i
      have h1 := ih (applyOp fb op) i
      have h2 := applyOp_zbuffer_le fb op i
      exact depthLe_trans (by simpa [applyOps] using h1) h2

/-- One `set_current_color`-then-`point` step, seen at the written pixel. -/
theorem point_step (fb : Framebuffer) (x y : ℕ) (c : ℕ) (d : ℚ)
    (hx : x < fb.width) (hy : y < fb.height) :
    (fb.set_current_color c).point x y (some d)
      = if depthGt (fb.zbuffer.getD (y * fb.width + x) none) (some d)
        then { fb with
                current_color := c
                buffer := fb.buffer.set (y * fb.width + x) c
                zbuffer := fb.zbuffer.set (y * fb.width + x) (some d) }
        else fb.set_current_color c := by
  simp only [Framebuffer.point, Framebuffer.set_current_color]
  rw [if_pos ⟨hx, hy⟩]

/-- The pixel cell (color, depth) at an in-bounds coordinate evolves under a
write sequence exactly as `cellFold` prescribes. -/
theorem writeSeq_cell (x y : ℕ) (ws : List (ℕ × ℚ)) :
    ∀ fb : Framebuffer, x < fb.width → y < fb.height →
      y * fb.width + x < fb.buffer.length →
      y * fb.width + x < fb.zbuffer.length →
      ((writeSeq fb x y ws).buffer.getD (y * fb.width + x) 0,
        (writeSeq fb x y ws).zbuffer.getD (y * fb.width + x) none)
        = cellFold (fb.buffer.getD (y * fb.width + x) 0,
            fb.zbuffer.getD (y * fb.width + x) none) ws := by
  induction ws with
  | nil => intro fb _ _ _ _; rfl
  | cons w ws ih =>
      obtain ⟨c, d⟩ := w
      intro fb hx hy hb hz
      simp only [writeSeq, cellFold]
      rw [point_step fb x y c d hx hy]
      by_cases hgt : depthGt (fb.zbuffer.getD (y * fb.width + x) none) (some d)
        = true
      · rw [if_pos hgt, if_pos hgt]
        have := ih { fb with
            current_color := c
            buffer := fb.buffer.set (y * fb.width + x) c
            zbuffer := fb.zbuffer.set (y * fb.width + x) (some d) }
          hx hy (by simpa using hb) (by simpa using hz)
        simpa [List.getD_eq_getElem?_getD, List.getElem?_set, hb, hz] using this
      · rw [if_neg hgt, if_neg hgt]
        have := ih (fb.set_current_color c) hx hy hb hz
        simpa [Framebuffer.set_current_color] using this

/-- `minD` of a nonempty write list is never `none`. -/
theorem minD_cons_ne_none (w : ℕ × ℚ) (ws : List (ℕ × ℚ)) :
    minD (w :: ws) ≠ none := by
  obtain ⟨c, d⟩ := w
  simp only [minD]
  cases minD ws <;> simp

/-- `minD` bounds every depth in the write list from below. -/
theorem minD_le (ws : List (ℕ × ℚ)) (m : ℚ) (hm : minD ws = some m) :
    ∀ p ∈ ws, m ≤ p.2 := by
  induction ws generalizing m with
  | nil => simp [minD] at hm
  | cons w ws ih =>
      obtain ⟨c, d⟩ := w
      intro p hp
      rw [List.mem_cons] at hp
      rcases hp with hp | hp
      · cases hmin : minD ws with
        | none => simp [minD, hmin] at hm; simp [hp, ← hm]
        | some m' =>
            simp [minD, hmin] at hm
            simp [hp, ← hm, min_le_left]
      · cases hmin : minD ws with
        | none =>
            cases ws with
            | nil => simp at hp
            | cons w' ws' => exact absurd hmin (minD_cons_ne_none _ _)
        | some m' =>
            have h1 := ih m' hmin p hp
            simp [minD, hmin] at hm
            calc m ≤ m' := by rw [← hm]; exact min_le_right d m'
              _ ≤ p.2 := h1

/-- If no write in the list beats the current depth, the cell is unchanged. -/
theorem cellFold_noFire (ws : List (ℕ × ℚ)) :
    ∀ (c : ℕ) (D : Depth), (∀ p ∈ ws, depthGt D (some p.2) = false) →
      cellFold (c, D) ws = (c, D) := by
  induction ws with
  | nil => intro c D _; rfl
  | cons w ws ih =>
      obtain ⟨c', d⟩ := w
      intro c D h
      have hd : depthGt D (some d) = false := h (c', d) (by simp)
      simp only [cellFold, hd, Bool.false_eq_true, if_false]
      exact ih c D (fun p hp => h p (by simp [hp]))

/-- Closed form of `cellFold` from an initial depth beaten by the minimum:
the final cell holds the minimum depth and the color of the first write
achieving it. -/
theorem cellFold_spec (ws : List (ℕ × ℚ)) :
    ∀ (c0 : ℕ) (D : Depth) (m : ℚ) (c : ℕ),
      minD ws = some m → depthGt D (some m) = true → firstAt ws m = some c →
      cellFold (c0, D) ws = (c, some m) := by
  induction ws with
  | nil => intro c0 D m c hm _ _; simp [minD] at hm
  | cons w ws ih =>
      obtain ⟨c', d⟩ := w
      intro c0 D m c hm hgt hc
      cases hmin : minD ws with
      | none =>
          -- `minD` of a cons is always `some`, so `ws = []`.
          cases ws with
          | cons w' ws' => exact absurd hmin (minD_cons_ne_none _ _)
          | nil =>
              simp [minD] at hm
              subst hm
              simp [firstAt, List.find?] at hc
              simp [cellFold, hgt, hc]
      | some m' =>
          simp [minD, hmin] at hm
          by_cases hdm : d ≤ m'
          · -- the head write achieves the minimum
            have hmd : m = d := by rw [← hm]; exact min_eq_left hdm
            subst hmd
            have hcc : c = c' := by
              simp [firstAt, List.find?] at hc
              exact hc.symm
            subst hcc
            simp only [cellFold, hgt, if_true]
            apply cellFold_noFire
            intro p hp
            have := minD_le ws m' hmin p hp
            simp [depthGt]
            linarith
          · -- the minimum is achieved strictly inside the tail
            push_neg at hdm
            have hmm : m = m' := by rw [← hm]; exact min_eq_right (le_of_lt hdm)
            subst hmm
            have hne : ¬ (d = m) := by linarith
            have hc' : firstAt ws m = some c := by
              simpa [firstAt, List.find?, hne] using hc
            by_cases hgd : depthGt D (some d) = true
            · simp only [cellFold, hgd, if_true]
              exact ih c' (some d) m c hmin (by simp [depthGt]; linarith) hc'
            · simp only [cellFold, hgd]
              rw [if_neg (by simpa using hgd)]
              exact ih c0 D m c hmin hgt hc'

/-- C1: at an in-bounds pixel, `point` overwrites the stored color and depth
exactly when the new depth is strictly smaller than the stored depth
(first conjunct); within one frame (after `clear()`), a sequence of writes to
one pixel leaves the color of the first write achieving the minimum depth and
that minimum depth itself (second and third conjuncts); and across any
sequence of framebuffer operations the stored depth at any index never
increases (fourth conjunct). -/
theorem point_depth_test_spec (fb : Framebuffer) (x y i : ℕ) (d : Depth)
    (ws : List (ℕ × ℚ)) (ops : List FbOp) (m : ℚ) (c : ℕ)
    (hbg : fb.background_buffer.length = fb.width * fb.height)
    (hz : fb.zbuffer.length = fb.width * fb.height)
    (hx : x < fb.width) (hy : y < fb.height)
    (hm : minD ws = some m) (hc : firstAt ws m = some c) :
    fb.point x y d
      = (if depthGt (fb.zbuffer.getD (y * fb.width + x) none) d
         then { fb with
                 buffer := fb.buffer.set (y * fb.width + x) fb.current_color
                 zbuffer := fb.zbuffer.set (y * fb.width + x) d }
         else fb)
    ∧ (writeSeq fb.clear x y ws).buffer.getD (y * fb.width + x) 0 = c
    ∧ (writeSeq fb.clear x y ws).zbuffer.getD (y * fb.width + x) none = some m
    ∧ depthLe ((applyOps fb ops).zbuffer.getD i none)
        (fb.zbuffer.getD i none) = true := by
  have hI : y * fb.width + x < fb.width * fb.height := pixel_index_lt hx hy
  have hb' : y * fb.width + x < fb.clear.buffer.length := by
    simp only [Framebuffer.clear]
    omega
  have hz' : y * fb.width + x < fb.clear.zbuffer.length := by
    simp only [Framebuffer.clear, List.length_replicate]
    omega
  have hcell := writeSeq_cell x y ws fb.clear hx hy hb' hz'
  have hw : fb.clear.width = fb.width := rfl
  rw [hw] at hcell
  have hstart : fb.clear.zbuffer.getD (y * fb.width + x) none = none := by
    simp only [Framebuffer.clear, List.getD_eq_getElem?_getD,
      List.getElem?_replicate]
    rw [if_pos (by omega)]
    rfl
  rw [hstart] at hcell
  rw [cellFold_spec ws _ none m c hm (by simp [depthGt]) hc] at hcell
  refine ⟨?_, congrArg Prod.fst hcell, congrArg Prod.snd hcell,
    applyOps_zbuffer_le ops fb i⟩
  simp only [Framebuffer.point]
  rw [if_pos ⟨hx, hy⟩]

/-- Witness for `point_depth_test_spec`: a concrete 2×2 framebuffer, three
writes to pixel (1,0) with depths 5, 3, 7, so the depth-3 write (color 20)
wins. -/
theorem point_depth_test_spec_witness :
    (Framebuffer.new 2 2).point 1 0 (some 1)
      = (if depthGt ((Framebuffer.new 2 2).zbuffer.getD
            (0 * (Framebuffer.new 2 2).width + 1) none) (some 1)
         then { Framebuffer.new 2 2 with
                 buffer := (Framebuffer.new 2 2).buffer.set
                   (0 * (Framebuffer.new 2 2).width + 1)
                   (Framebuffer.new 2 2).current_color
                 zbuffer := (Framebuffer.new 2 2).zbuffer.set
                   (0 * (Framebuffer.new 2 2).width + 1) (some 1) }
         else Framebuffer.new 2 2)
    ∧ (writeSeq (Framebuffer.new 2 2).clear 1 0 [(10, 5), (20, 3), (30, 7)]
        ).buffer.getD (0 * (Framebuffer.new 2 2).width + 1) 0 = 20
    ∧ (writeSeq (Framebuffer.new 2 2).clear 1 0 [(10, 5), (20, 3), (30, 7)]
        ).zbuffer.getD (0 * (Framebuffer.new 2 2).width + 1) none = some 3
    ∧ depthLe ((applyOps (Framebuffer.new 2 2)
          [.point 0 0 (some 2), .setCurrentColor 7]).zbuffer.getD 0 none)
        ((Framebuffer.new 2 2).zbuffer.getD 0 none) = true :=
  point_depth_test_spec (Framebuffer.new 2 2) 1 0 0 (some 1)
    [(10, 5), (20, 3), (30, 7)] [.point 0 0 (some 2), .setCurrentColor 7] 3 20
    (by decide) (by decide) (by decide) (by decide) (by decide) (by decide)

/-- C2: after `clear()` on any framebuffer whose color buffer and background
layer have the same length (the precondition of `copy_from_slice`, maintained
by `new` and every operation), every color-buffer element equals the
corresponding background element, every depth slot is `+∞`, and the
background layer itself is unchanged. -/
theorem clear_resets_frame (fb : Framebuffer) (i : ℕ)
    (hlen : fb.buffer.length = fb.background_buffer.length)
    (hzi : i < fb.zbuffer.length) :
    fb.clear.buffer.getD i 0 = fb.background_buffer.getD i 0
    ∧ fb.clear.zbuffer[i]? = some none
    ∧ fb.clear.background_buffer = fb.background_buffer := by
  refine ⟨rfl, ?_, rfl⟩
  simp [Framebuffer.clear, List.getElem?_replicate, hzi]

/-- Witness for `clear_resets_frame` at a concrete framebuffer. -/
theorem clear_resets_frame_witness :
    (Framebuffer.new 2 2).clear.buffer.getD 3 0
        = (Framebuffer.new 2 2).background_buffer.getD 3 0
    ∧ (Framebuffer.new 2 2).clear.zbuffer[3]? = some none
    ∧ (Framebuffer.new 2 2).clear.background_buffer
        = (Framebuffer.new 2 2).background_buffer :=
  clear_resets_frame (Framebuffer.new 2 2) 3 (by decide) (by decide)

/-- C3: `point(x, y, depth)` with `x ≥ width` or `y ≥ height` leaves the
whole framebuffer state (color, depth and background buffers) unchanged and
cannot fail: the bounds check rejects the write before any buffer access. -/
theorem point_out_of_bounds_noop (fb : Framebuffer) (x y : ℕ) (d : Depth)
    (h : fb.width ≤ x ∨ fb.height ≤ y) :
    fb.point x y d = fb := by
  unfold Framebuffer.point
  rw [if_neg]
  omega

/-- Witness for `point_out_of_bounds_noop` at a concrete framebuffer. -/
theorem point_out_of_bounds_noop_witness :
    (Framebuffer.new 2 2).point 2 0 (some 1) = Framebuffer.new 2 2 :=
  point_out_of_bounds_noop (Framebuffer.new 2 2) 2 0 (some 1) (Or.inl (by decide))

/-! ### Primitive assembly (`render` in `src/main.rs`, lines 124-134)

The Rust loop walks `i` over `0, 3, 6, …` through the transformed-vertex
list and pushes the triple at `i, i+1, i+2` whenever `i + 2 < len`; once
`i + 2 ≥ len` every later stride also fails the test and pushes nothing, so
the loop is equivalent to stopping at the first failing stride, which is how
`assembleFrom` recurses. -/

/-- The assembly loop of `render`, starting at stride index `i`. -/
def assembleFrom (vs : List α) (i : ℕ) : List (α × α × α) :=
  if h : i + 2 < vs.length then
    (vs.get ⟨i, by omega⟩, vs.get ⟨i + 1, by omega⟩, vs.get ⟨i + 2, h⟩)
      :: assembleFrom vs (i + 3)
  else []
termination_by vs.length - i

/-- Primitive assembly: the loop starting at index 0. -/
def assemble (vs : List α) : List (α × α × α) := assembleFrom vs 0

/-- Grouping a list into consecutive non-overlapping triples (proof device
used to characterize `assembleFrom`). -/
def chunk3 : List α → List (α × α × α)
  | [] => []
  | [_] => []
  | [_, _] => []
  | a :: b :: c :: rest => (a, b, c) :: chunk3 rest

theorem chunk3_short (l : List α) (h : l.length ≤ 2) : chunk3 l = [] := by
  match l with
  | [] => rfl
  | [_] => rfl
  | [_, _] => rfl
  | _ :: _ :: _ :: _ => simp at h

/-- `assembleFrom vs i` groups the suffix `vs.drop i` into triples. -/
theorem assembleFrom_eq_chunk3 (vs : List α) (i : ℕ) :
    assembleFrom vs i = chunk3 (vs.drop i) := by
  rw [assembleFrom]
  split
  · rename_i h
    rw [List.drop_eq_getElem_cons (show i < vs.length by omega),
      List.drop_eq_getElem_cons (show i + 1 < vs.length by omega),
      List.drop_eq_getElem_cons (show i + 1 + 1 < vs.length by omega)]
    simp only [chunk3]
    rw [assembleFrom_eq_chunk3 vs (i + 3)]
    simp only [List.get_eq_getElem]
  · rename_i h
    rw [chunk3_short]
    simp only [List.length_drop]
    omega
termination_by vs.length - i

theorem chunk3_length : ∀ l : List α, (chunk3 l).length = l.length / 3
  | [] => by simp [chunk3]
  | [_] => by simp [chunk3]
  | [_, _] => by simp [chunk3]
  | a :: b :: c :: rest => by
      simp only [chunk3, List.length_cons, chunk3_length rest]
      omega

theorem chunk3_getElem? : ∀ (l : List α) (k : ℕ),
    (chunk3 l)[k]? = l[3 * k]?.bind (fun a =>
      l[3 * k + 1]?.bind (fun b => l[3 * k + 2]?.map (fun c => (a, b, c))))
  | [], k => by simp [chunk3]
  | [a], k => by
      have h1 : ([a] : List α)[3 * k + 1]? = none :=
        List.getElem?_eq_none (by simp only [List.length_singleton]; omega)
      cases h : ([a] : List α)[3 * k]? <;> simp [chunk3, h, h1]
  | [a, b], k => by
      have h2 : ([a, b] : List α)[3 * k + 2]? = none :=
        List.getElem?_eq_none (by simp only [List.length_cons, List.length_nil]; omega)
      cases h : ([a, b] : List α)[3 * k]? <;>
        cases h1 : ([a, b] : List α)[3 * k + 1]? <;>
          simp [chunk3, h, h1, h2]
  | a :: b :: c :: rest, k => by
      cases k with
      | zero => simp [chunk3]
      | succ k =>
          have e2 : 3 * (k + 1) + 2 = 3 * k + 2 + 1 + 1 + 1 := by ring
          have e1 : 3 * (k + 1) + 1 = 3 * k + 1 + 1 + 1 + 1 := by ring
          have e0 : 3 * (k + 1) = 3 * k + 1 + 1 + 1 := by ring
          rw [e2, e1, e0]
          simp only [chunk3, List.getElem?_cons_succ]
          have := chunk3_getElem? rest k
          rw [this]

/-- C4: primitive assembly on any `N`-vertex list yields exactly `⌊N/3⌋`
triangles; the `k`-th triangle is the triple of vertices at indices
`3k, 3k+1, 3k+2` (the `Option.bind` chain is `some` of that triple whenever
`k < ⌊N/3⌋`, and `none` past the end); and only the first `3·⌊N/3⌋`
vertices matter: a trailing group of 1 or 2 leftovers is dropped without
error. -/
theorem primitive_assembly_spec (vs : List α) (k : ℕ) :
    (assemble vs).length = vs.length / 3
    ∧ (assemble vs)[k]? = vs[3 * k]?.bind (fun a =>
        vs[3 * k + 1]?.bind (fun b => vs[3 * k + 2]?.map (fun c => (a, b, c))))
    ∧ assemble vs = assemble (vs.take (3 * (vs.length / 3))) := by
  have hasm : ∀ l : List α, assemble l = chunk3 l := fun l => by
    rw [assemble, assembleFrom_eq_chunk3]
    rfl
  refine ⟨by rw [hasm, chunk3_length], by rw [hasm, chunk3_getElem?], ?_⟩
  rw [hasm, hasm]
  apply List.ext_getElem?
  intro n
  rw [chunk3_getElem?, chunk3_getElem?]
  by_cases hn : n < vs.length / 3
  · have t0 : (vs.take (3 * (vs.length / 3)))[3 * n]? = vs[3 * n]? := by
      rw [List.getElem?_take, if_pos (by omega)]
    have t1 : (vs.take (3 * (vs.length / 3)))[3 * n + 1]? = vs[3 * n + 1]? := by
      rw [List.getElem?_take, if_pos (by omega)]
    have t2 : (vs.take (3 * (vs.length / 3)))[3 * n + 2]? = vs[3 * n + 2]? := by
      rw [List.getElem?_take, if_pos (by omega)]
    rw [t0, t1, t2]
  · have h2 : vs[3 * n + 2]? = none := List.getElem?_eq_none (by omega)
    have h2' : (vs.take (3 * (vs.length / 3)))[3 * n + 2]? = none :=
      List.getElem?_eq_none (by simp [List.length_take]; omega)
    rw [h2, h2']
    cases vs[3 * n]? <;>
      cases (vs.take (3 * (vs.length / 3)))[3 * n]? <;>
        cases vs[3 * n + 1]? <;>
          cases (vs.take (3 * (vs.length / 3)))[3 * n + 1]? <;> simp

/-! ### Vectors and matrices (`nalgebra_glm` types, entries idealized as ℚ)

`Mat4::new` / `Mat3::new` take their entries in row-major order, which is how
the fields `m11 … m44` are laid out here. -/

/-- A 2-component vector (`Vec2`). -/
@[ext] structure Vec2 where
  x : ℚ
  y : ℚ
deriving DecidableEq

/-- A 3-component vector (`Vec3`). -/
@[ext] structure Vec3 where
  x : ℚ
  y : ℚ
  z : ℚ
deriving DecidableEq

/-- A 4-component vector (`Vec4`). -/
@[ext] structure Vec4 where
  x : ℚ
  y : ℚ
  z : ℚ
  w : ℚ
deriving DecidableEq

namespace Vec3

/-- Componentwise subtraction. -/
def sub (a b : Vec3) : Vec3 := ⟨a.x - b.x, a.y - b.y, a.z - b.z⟩

/-- Scalar multiplication. -/
def smul (s : ℚ) (a : Vec3) : Vec3 := ⟨s * a.x, s * a.y, s * a.z⟩

/-- Dot product. -/
def dot (a b : Vec3) : ℚ := a.x * b.x + a.y * b.y + a.z * b.z

/-- Cross product (`a.cross(&b)`). -/
def cross (a b : Vec3) : Vec3 :=
  ⟨a.y * b.z - a.z * b.y, a.z * b.x - a.x * b.z, a.x * b.y - a.y * b.x⟩

/-- `normalize()`: divide by the norm, with the square root supplied by an
explicit `fsqrt` oracle standing for the float `sqrt` (exact division in ℚ;
division by a zero norm yields the zero vector in this idealization). -/
def normalize (fsqrt : ℚ → ℚ) (a : Vec3) : Vec3 :=
  let n := fsqrt (a.dot a)
  ⟨a.x / n, a.y / n, a.z / n⟩

end Vec3

/-- A 3×3 matrix (`Mat3`), fields in row-major order. -/
@[ext] structure Mat3 where
  m11 : ℚ
  m12 : ℚ
  m13 : ℚ
  m21 : ℚ
  m22 : ℚ
  m23 : ℚ
  m31 : ℚ
  m32 : ℚ
  m33 : ℚ
deriving DecidableEq

namespace Mat3

/-- Identity matrix (`Mat3::identity()`). -/
def id : Mat3 := ⟨1, 0, 0, 0, 1, 0, 0, 0, 1⟩

/-- Matrix product. -/
def mul (a b : Mat3) : Mat3 :=
  ⟨a.m11 * b.m11 + a.m12 * b.m21 + a.m13 * b.m31,
   a.m11 * b.m12 + a.m12 * b.m22 + a.m13 * b.m32,
   a.m11 * b.m13 + a.m12 * b.m23 + a.m13 * b.m33,
   a.m21 * b.m11 + a.m22 * b.m21 + a.m23 * b.m31,
   a.m21 * b.m12 + a.m22 * b.m22 + a.m23 * b.m32,
   a.m21 * b.m13 + a.m22 * b.m23 + a.m23 * b.m33,
   a.m31 * b.m11 + a.m32 * b.m21 + a.m33 * b.m31,
   a.m31 * b.m12 + a.m32 * b.m22 + a.m33 * b.m32,
   a.m31 * b.m13 + a.m32 * b.m23 + a.m33 * b.m33⟩

/-- Matrix–vector product. -/
def mulVec (m : Mat3) (v : Vec3) : Vec3 :=
  ⟨m.m11 * v.x + m.m12 * v.y + m.m13 * v.z,
   m.m21 * v.x + m.m22 * v.y + m.m23 * v.z,
   m.m31 * v.x + m.m32 * v.y + m.m33 * v.z⟩

/-- Transpose. -/
def transpose (m : Mat3) : Mat3 :=
  ⟨m.m11, m.m21, m.m31, m.m12, m.m22, m.m32, m.m13, m.m23, m.m33⟩

/-- Determinant (cofactor expansion along the first row, as `nalgebra`
computes it). -/
def det (m : Mat3) : ℚ :=
  m.m11 * (m.m22 * m.m33 - m.m23 * m.m32)
    - m.m12 * (m.m21 * m.m33 - m.m23 * m.m31)
    + m.m13 * (m.m21 * m.m32 - m.m22 * m.m31)

/-- The adjugate-over-determinant inverse (total function; meaningful only
when `det ≠ 0`). -/
def inv3 (m : Mat3) : Mat3 :=
  ⟨(m.m22 * m.m33 - m.m23 * m.m32) / m.det,
   (m.m13 * m.m32 - m.m12 * m.m33) / m.det,
   (m.m12 * m.m23 - m.m13 * m.m22) / m.det,
   (m.m23 * m.m31 - m.m21 * m.m33) / m.det,
   (m.m11 * m.m33 - m.m13 * m.m31) / m.det,
   (m.m13 * m.m21 - m.m11 * m.m23) / m.det,
   (m.m21 * m.m32 - m.m22 * m.m31) / m.det,
   (m.m12 * m.m31 - m.m11 * m.m32) / m.det,
   (m.m11 * m.m22 - m.m12 * m.m21) / m.det⟩

/-- `try_inverse()`: `None` exactly when the determinant is zero, otherwise
the cofactor inverse. -/
def tryInverse (m : Mat3) : Option Mat3 :=
  if m.det = 0 then none else some m.inv3

end Mat3

/-- A 4×4 matrix (`Mat4`), fields in row-major order as in `Mat4::new`. -/
@[ext] structure Mat4 where
  m11 : ℚ
  m12 : ℚ
  m13 : ℚ
  m14 : ℚ
  m21 : ℚ
  m22 : ℚ
  m23 : ℚ
  m24 : ℚ
  m31 : ℚ
  m32 : ℚ
  m33 : ℚ
  m34 : ℚ
  m41 : ℚ
  m42 : ℚ
  m43 : ℚ
  m44 : ℚ
deriving DecidableEq

namespace Mat4

/-- Matrix product. -/
def mul (a b : Mat4) : Mat4 :=
  ⟨a.m11 * b.m11 + a.m12 * b.m21 + a.m13 * b.m31 + a.m14 * b.m41,
   a.m11 * b.m12 + a.m12 * b.m22 + a.m13 * b.m32 + a.m14 * b.m42,
   a.m11 * b.m13 + a.m12 * b.m23 + a.m13 * b.m33 + a.m14 * b.m43,
   a.m11 * b.m14 + a.m12 * b.m24 + a.m13 * b.m34 + a.m14 * b.m44,
   a.m21 * b.m11 + a.m22 * b.m21 + a.m23 * b.m31 + a.m24 * b.m41,
   a.m21 * b.m12 + a.m22 * b.m22 + a.m23 * b.m32 + a.m24 * b.m42,
   a.m21 * b.m13 + a.m22 * b.m23 + a.m23 * b.m33 + a.m24 * b.m43,
   a.m21 * b.m14 + a.m22 * b.m24 + a.m23 * b.m34 + a.m24 * b.m44,
   a.m31 * b.m11 + a.m32 * b.m21 + a.m33 * b.m31 + a.m34 * b.m41,
   a.m31 * b.m12 + a.m32 * b.m22 + a.m33 * b.m32 + a.m34 * b.m42,
   a.m31 * b.m13 + a.m32 * b.m23 + a.m33 * b.m33 + a.m34 * b.m43,
   a.m31 * b.m14 + a.m32 * b.m24 + a.m33 * b.m34 + a.m34 * b.m44,
   a.m41 * b.m11 + a.m42 * b.m21 + a.m43 * b.m31 + a.m44 * b.m41,
   a.m41 * b.m12 + a.m42 * b.m22 + a.m43 * b.m32 + a.m44 * b.m42,
   a.m41 * b.m13 + a.m42 * b.m23 + a.m43 * b.m33 + a.m44 * b.m43,
   a.m41 * b.m14 + a.m42 * b.m24 + a.m43 * b.m34 + a.m44 * b.m44⟩

/-- Matrix–vector product on homogeneous coordinates. -/
def mulVec4 (m : Mat4) (v : Vec4) : Vec4 :=
  ⟨m.m11 * v.x + m.m12 * v.y + m.m13 * v.z + m.m14 * v.w,
   m.m21 * v.x + m.m22 * v.y + m.m23 * v.z + m.m24 * v.w,
   m.m31 * v.x + m.m32 * v.y + m.m33 * v.z + m.m34 * v.w,
   m.m41 * v.x + m.m42 * v.y + m.m43 * v.z + m.m44 * v.w⟩

end Mat4

/-- `nalgebra_glm::mat4_to_mat3`: the upper-left 3×3 submatrix. -/
def mat4_to_mat3 (m : Mat4) : Mat3 :=
  ⟨m.m11, m.m12, m.m13, m.m21, m.m22, m.m23, m.m31, m.m32, m.m33⟩

/-! ### Color (`src/color.rs` is not under `src/`) -/

/-- Clamp one channel into the legal 8-bit range `[0, 255]`. -/
def cl (q : ℚ) : ℚ := max 0 (min q 255)

/-- Modelled from the spec: `color.rs` is absent from `src/`; per §3 a
`Color` stores "three 8-bit-range channels" and supports scalar
multiplication, addition and `lerp`, each clamping its channels "into its
legal range" (§8), plus an explicit `clamp()` used by the spaceship shader.
Channels are kept as exact rationals. -/
@[ext] structure Color where
  r : ℚ
  g : ℚ
  b : ℚ
deriving DecidableEq

namespace Color

/-- Modelled from the spec: `Color::new`, clamping each channel into the
8-bit range. -/
def new (r g b : ℚ) : Color := ⟨cl r, cl g, cl b⟩

/-- Modelled from the spec: scalar multiplication (`Color * f32`), the
lighting attenuation, clamped per channel. -/
def mul (c : Color) (s : ℚ) : Color := ⟨cl (c.r * s), cl (c.g * s), cl (c.b * s)⟩

/-- Modelled from the spec: color addition (additive glow), clamped per
channel. -/
def add (c d : Color) : Color := ⟨cl (c.r + d.r), cl (c.g + d.g), cl (c.b + d.b)⟩

/-- Modelled from the spec: linear interpolation `lerp(other, t)`, clamped
per channel. -/
def lerp (c d : Color) (t : ℚ) : Color :=
  ⟨cl (c.r + (d.r - c.r) * t), cl (c.g + (d.g - c.g) * t),
   cl (c.b + (d.b - c.b) * t)⟩

/-- Modelled from the spec: `clamp()`, clamping each channel to its legal
range. -/
def clamp (c : Color) : Color := ⟨cl c.r, cl c.g, cl c.b⟩

/-- All channels within the 8-bit range. -/
def InRange (c : Color) : Prop :=
  0 ≤ c.r ∧ c.r ≤ 255 ∧ 0 ≤ c.g ∧ c.g ≤ 255 ∧ 0 ≤ c.b ∧ c.b ≤ 255

instance (c : Color) : Decidable c.InRange := by
  unfold InRange
  infer_instance

end Color

/-! ### Fragments, uniforms and external oracles -/

/-- Modelled from the spec: `fragment.rs` is absent from `src/`; per §3 a
`Fragment` carries the interpolated screen position, normal, depth and a
scalar lighting intensity; the shaders in `src/shaders.rs` additionally read
an interpolated object-space position field `vertex_position`. -/
structure Fragment where
  position : Vec2
  normal : Vec3
  intensity : ℚ
  depth : ℚ
  vertex_position : Vec3

/-- The `Uniforms` bundle from `src/main.rs`; the `FastNoiseLite` handle is
abstracted by its two deterministic sampling functions (spec §6: the noise
oracle contract). -/
structure Uniforms where
  model_matrix : Mat4
  view_matrix : Mat4
  projection_matrix : Mat4
  viewport_matrix : Mat4
  time : ℕ
  noise2 : ℚ → ℚ → ℚ
  noise3 : ℚ → ℚ → ℚ → ℚ

/-- Oracles for external float math (`sin`, `cos`, `sqrt`, `atan2`, `powf`)
and for the `StdRng::seed_from_u64` + `gen_range(0..=100)` draw, which is a
deterministic function of the seed. -/
structure FloatOps where
  fsin : ℚ → ℚ
  fcos : ℚ → ℚ
  fsqrt : ℚ → ℚ
  fatan2 : ℚ → ℚ → ℚ
  fpow : ℚ → ℚ → ℚ
  rngDraw : ℕ → ℕ

/-- The saturating cast `f.abs() as u64` on an exact rational. -/
def f32AbsToU64 (q : ℚ) : ℕ := min (⌊|q|⌋).toNat (2 ^ 64 - 1)

/-- Float `trunc` (round toward zero). -/
def ratTrunc (q : ℚ) : ℚ := if 0 ≤ q then (⌊q⌋ : ℚ) else (⌈q⌉ : ℚ)

/-- The float remainder `a % b` (`a - b * (a / b).trunc()`). -/
def fmod (a b : ℚ) : ℚ := a - b * ratTrunc (a / b)

/-- Float `floor` as an exact rational. -/
def ffloor (q : ℚ) : ℚ := (⌊q⌋ : ℚ)

/-! ### Vertices and the vertex shader (`src/shaders.rs`, lines 11-44) -/

/-- Modelled from the spec: `vertex.rs` is absent from `src/`; per §3 a
vertex holds object-space position, normal, texture coordinates, base color
and the two stage-derived fields (screen-space position and transformed
normal), exactly the fields `vertex_shader` constructs. -/
structure Vertex where
  position : Vec3
  normal : Vec3
  tex_coords : Vec2
  color : Color
  transformed_position : Vec3
  transformed_normal : Vec3

/-- `vertex_shader` from `src/shaders.rs`: clip-space transform, perspective
divide, viewport mapping, and the transpose-inverse normal transform with
identity fallback (`unwrap_or(Mat3::identity())`). -/
def vertex_shader (vertex : Vertex) (uniforms : Uniforms) : Vertex :=
  let position : Vec4 :=
    ⟨vertex.position.x, vertex.position.y, vertex.position.z, 1⟩
  let transformed :=
    ((uniforms.projection_matrix.mul uniforms.view_matrix).mul
      uniforms.model_matrix).mulVec4 position
  let w := transformed.w
  let transformed_position : Vec4 :=
    ⟨transformed.x / w, transformed.y / w, transformed.z / w, 1⟩
  let screen_position := uniforms.viewport_matrix.mulVec4 transformed_position
  let model_mat3 := mat4_to_mat3 uniforms.model_matrix
  let normal_matrix := model_mat3.transpose.tryInverse.getD Mat3.id
  let transformed_normal := normal_matrix.mulVec vertex.normal
  { position := vertex.position
    normal := vertex.normal
    tex_coords := vertex.tex_coords
    color := vertex.color
    transformed_position :=
      ⟨screen_position.x, screen_position.y, screen_position.z⟩
    transformed_normal := transformed_normal }

/-! ### The fragment shading library (`src/shaders.rs`, lines 46-315) -/

/-- `lines_shader`: seed a `StdRng` from `time * y * x`, draw once in
`0..=100` and threshold at 50 between two fixed colors, then attenuate by
the fragment intensity. -/
def lines_shader (O : FloatOps) (fragment : Fragment) (uniforms : Uniforms) :
    Color :=
  let seed := (uniforms.time : ℚ) * fragment.vertex_position.y
    * fragment.vertex_position.x
  let random_number := O.rngDraw (f32AbsToU64 seed)
  let black_or_white :=
    if random_number < 50 then Color.new 92 137 182 else Color.new 188 67 67
  black_or_white.mul fragment.intensity

/-- `dalmata_shader`: two-tone 2D-noise spots, attenuated by intensity. -/
def dalmata_shader (O : FloatOps) (fragment : Fragment) (uniforms : Uniforms) :
    Color :=
  let _ := O
  let zoom : ℚ := 220
  let ox : ℚ := 0
  let oy : ℚ := 0
  let x := fragment.vertex_position.x
  let y := fragment.vertex_position.y
  let noise_value := uniforms.noise2 ((x + ox) * zoom) ((y + oy) * zoom)
  let spot_threshold : ℚ := 0.2
  let spot_color := Color.new 159 182 255
  let base_color := Color.new 30 58 55
  let noise_color :=
    if noise_value < spot_threshold then spot_color else base_color
  noise_color.mul fragment.intensity

/-- `cloud_shader`: animated two-tone 2D-noise clouds, attenuated by
intensity. -/
def cloud_shader (O : FloatOps) (fragment : Fragment) (uniforms : Uniforms) :
    Color :=
  let _ := O
  let zoom : ℚ := 100
  let ox : ℚ := 100
  let oy : ℚ := 100
  let x := fragment.vertex_position.x
  let y := fragment.vertex_position.y
  let t := (uniforms.time : ℚ) * 0.5
  let noise_value := uniforms.noise2 (x * zoom + ox + t) (y * zoom + oy)
  let cloud_threshold : ℚ := 0.5
  let cloud_color := Color.new 255 255 255
  let sky_color := Color.new 30 97 145
  let noise_color :=
    if noise_value > cloud_threshold then cloud_color else sky_color
  noise_color.mul fragment.intensity

/-- `cellular_shader`: four-tone cell pattern from the absolute noise value,
attenuated by intensity. -/
def cellular_shader (O : FloatOps) (fragment : Fragment)
    (uniforms : Uniforms) : Color :=
  let _ := O
  let zoom : ℚ := 30
  let ox : ℚ := 50
  let oy : ℚ := 50
  let x := fragment.vertex_position.x
  let y := fragment.vertex_position.y
  let cell_noise_value := |uniforms.noise2 (x * zoom + ox) (y * zoom + oy)|
  let cell_color_1 := Color.new 91 206 219
  let cell_color_2 := Color.new 108 146 212
  let cell_color_3 := Color.new 69 121 91
  let cell_color_4 := Color.new 43 0 186
  let final_color :=
    if cell_noise_value < 0.15 then cell_color_1
    else if cell_noise_value < 0.7 then cell_color_2
    else if cell_noise_value < 0.75 then cell_color_3
    else cell_color_4
  final_color.mul fragment.intensity

/-- `lava_shader`: pulsating two-noise lerp with additive glow.  Note: the
returned color is NOT attenuated by `fragment.intensity`. -/
def lava_shader (O : FloatOps) (fragment : Fragment) (uniforms : Uniforms) :
    Color :=
  let bright_color := Color.new 255 226 107
  let dark_color := Color.new 130 20 0
  let position : Vec3 :=
    ⟨fragment.vertex_position.x, fragment.vertex_position.y, fragment.depth⟩
  let base_frequency : ℚ := 0.2
  let pulsate_amplitude : ℚ := 0.5
  let t := (uniforms.time : ℚ) * 0.01
  let pulsate := O.fsin (t * base_frequency) * pulsate_amplitude
  let zoom : ℚ := 1000
  let noise_value1 := uniforms.noise3 (position.x * zoom) (position.y * zoom)
    ((position.z + pulsate) * zoom)
  let noise_value2 := uniforms.noise3 ((position.x + 1000) * zoom)
    ((position.y + 1000) * zoom) ((position.z + 1000 + pulsate) * zoom)
  let noise_value := (noise_value1 + noise_value2) * 0.5
  let color := dark_color.lerp bright_color noise_value
  let glow_factor : ℚ := 2.0
  let glowing_color := color.mul glow_factor
  let glow_edge := (Color.new 198 33 0).mul (1 - noise_value)
  let final_color := glowing_color.add glow_edge
  final_color

/-- `gradient_shader`: vertical blue-to-red gradient, attenuated by
intensity. -/
def gradient_shader (O : FloatOps) (fragment : Fragment)
    (uniforms : Uniforms) : Color :=
  let _ := O
  let _ := uniforms
  let gradient_start := Color.new 0 0 255
  let gradient_end := Color.new 255 0 0
  let t := (fragment.vertex_position.y + 1) * 0.5
  let color := gradient_start.lerp gradient_end t
  color.mul fragment.intensity

/-- `continents_shader`: rotating two-tone land/ocean noise, attenuated by
intensity. -/
def continents_shader (O : FloatOps) (fragment : Fragment)
    (uniforms : Uniforms) : Color :=
  let _ := O
  let zoom : ℚ := 95
  let ox : ℚ := 45
  let oy : ℚ := 45
  let x := fragment.vertex_position.x
  let y := fragment.vertex_position.y
  let t := (uniforms.time : ℚ) * 0.3
  let noise_value := uniforms.noise2 (x * zoom + ox + t) (y * zoom + oy)
  let land_color := Color.new 34 139 34
  let ocean_color := Color.new 0 0 255
  let land_threshold : ℚ := 0.14
  let terrain_color :=
    if noise_value > land_threshold then land_color else ocean_color
  terrain_color.mul fragment.intensity

/-- `rings_shader`: concentric rings with a distance-based opacity gradient,
attenuated (together with the opacity) by intensity. -/
def rings_shader (O : FloatOps) (fragment : Fragment) (uniforms : Uniforms) :
    Color :=
  let _ := uniforms
  let x := fragment.vertex_position.x
  let y := fragment.vertex_position.y
  let distance := O.fsqrt (x * x + y * y)
  let color_blue := Color.new 0 0 255
  let color_silver := Color.new 192 192 192
  let color_emerald := Color.new 80 200 120
  let ring_width : ℚ := 0.3
  let ring_spacing : ℚ := 0.6
  let ring_pattern := ffloor (distance / ring_spacing)
  let base_color :=
    if fmod ring_pattern 1.5 = 0 then color_blue
    else if fmod ring_pattern 3.0 = 1 then color_silver
    else color_emerald
  let normalized_distance := fmod distance ring_spacing / ring_width
  let opacity : ℚ :=
    if normalized_distance < 1 then 1 - normalized_distance else 0
  base_color.mul (opacity * fragment.intensity)

/-- `spiral_shader`: rotating sinusoidal spiral, attenuated by intensity. -/
def spiral_shader (O : FloatOps) (fragment : Fragment) (uniforms : Uniforms) :
    Color :=
  let x := fragment.vertex_position.x
  let y := fragment.vertex_position.y
  let radius := O.fsqrt (x * x + y * y)
  let angle := O.fatan2 y x + (uniforms.time : ℚ) * 0.1
  let spiral_pattern := O.fsin (radius * 3 + angle) * 0.7
  let base_color := Color.new 227 228 229
  let spiral_color := Color.new 62 95 138
  let threshold : ℚ := 0
  let final_color :=
    if spiral_pattern > threshold then spiral_color else base_color
  final_color.mul fragment.intensity

/-- `spaceship_shader`: fixed-direction diffuse plus specular highlight;
uses its own lighting terms instead of `fragment.intensity`, then clamps. -/
def spaceship_shader (O : FloatOps) (fragment : Fragment)
    (uniforms : Uniforms) : Color :=
  let _ := uniforms
  let light_dir := Vec3.normalize O.fsqrt ⟨0.5, -1.0, -0.5⟩
  let view_dir := Vec3.normalize O.fsqrt ⟨0.0, 0.0, 1.0⟩
  let normal := Vec3.normalize O.fsqrt fragment.normal
  let diffuse_intensity := max (normal.dot light_dir) 0
  let reflect_dir := Vec3.normalize O.fsqrt
    ((Vec3.smul (2 * normal.dot light_dir) normal).sub light_dir)
  let specular_intensity := O.fpow (max (view_dir.dot reflect_dir) 0) 32
  let base_color := Color.new 202 107 7
  let color := (base_color.mul diffuse_intensity).add
    ((Color.new 202 107 7).mul specular_intensity)
  color.clamp

/-- `fragment_shader` from `src/shaders.rs`: string-keyed dispatch over the
shading routines; any unknown identifier yields `Color::new(0, 0, 0)`. -/
def fragment_shader (O : FloatOps) (fragment : Fragment)
    (uniforms : Uniforms) (shader_type : String) : Color :=
  if shader_type = "cloud_shader" then cloud_shader O fragment uniforms
  else if shader_type = "dalmata_shader" then dalmata_shader O fragment uniforms
  else if shader_type = "lines_shader" then lines_shader O fragment uniforms
  else if shader_type = "cellular_shader" then cellular_shader O fragment uniforms
  else if shader_type = "lava_shader" then lava_shader O fragment uniforms
  else if shader_type = "gradient_shader" then gradient_shader O fragment uniforms
  else if shader_type = "continents_shader" then continents_shader O fragment uniforms
  else if shader_type = "rings_shader" then rings_shader O fragment uniforms
  else if shader_type = "spiral_shader" then spiral_shader O fragment uniforms
  else if shader_type = "spaceship_shader" then spaceship_shader O fragment uniforms
  else Color.new 0 0 0

/-- The ten shader identifiers `fragment_shader` recognizes. -/
def knownShaderNames : List String :=
  ["cloud_shader", "dalmata_shader", "lines_shader", "cellular_shader",
   "lava_shader", "gradient_shader", "continents_shader", "rings_shader",
   "spiral_shader", "spaceship_shader"]

/-! ### Matrix builders (`src/main.rs`, lines 55-114) -/

/-- `create_model_matrix` from `src/main.rs`: three elementary rotations
composed as `Z * Y * X`, then left-multiplied by the uniform-scale-plus-
translation matrix.  The float `sin_cos` of each Euler angle is supplied by
the `FloatOps` oracle. -/
def create_model_matrix (O : FloatOps) (translation : Vec3) (scale : ℚ)
    (rotation : Vec3) : Mat4 :=
  let sin_x := O.fsin rotation.x
  let cos_x := O.fcos rotation.x
  let sin_y := O.fsin rotation.y
  let cos_y := O.fcos rotation.y
  let sin_z := O.fsin rotation.z
  let cos_z := O.fcos rotation.z
  let rotation_matrix_x : Mat4 :=
    ⟨1, 0, 0, 0,
     0, cos_x, -sin_x, 0,
     0, sin_x, cos_x, 0,
     0, 0, 0, 1⟩
  let rotation_matrix_y : Mat4 :=
    ⟨cos_y, 0, sin_y, 0,
     0, 1, 0, 0,
     -sin_y, 0, cos_y, 0,
     0, 0, 0, 1⟩
  let rotation_matrix_z : Mat4 :=
    ⟨cos_z, -sin_z, 0, 0,
     sin_z, cos_z, 0, 0,
     0, 0, 1, 0,
     0, 0, 0, 1⟩
  let rotation_matrix := (rotation_matrix_z.mul rotation_matrix_y).mul
    rotation_matrix_x
  let transform_matrix : Mat4 :=
    ⟨scale, 0, 0, translation.x,
     0, scale, 0, translation.y,
     0, 0, scale, translation.z,
     0, 0, 0, 1⟩
  transform_matrix.mul rotation_matrix

/-- The elementary rotation about X, as the spec words it ("elementary
rotation matrices around X, Y, Z from the given Euler angles"). -/
def specRotX (O : FloatOps) (angle : ℚ) : Mat4 :=
  ⟨1, 0, 0, 0,
   0, O.fcos angle, -(O.fsin angle), 0,
   0, O.fsin angle, O.fcos angle, 0,
   0, 0, 0, 1⟩

/-- The elementary rotation about Y, as the spec words it. -/
def specRotY (O : FloatOps) (angle : ℚ) : Mat4 :=
  ⟨O.fcos angle, 0, O.fsin angle, 0,
   0, 1, 0, 0,
   -(O.fsin angle), 0, O.fcos angle, 0,
   0, 0, 0, 1⟩

/-- The elementary rotation about Z, as the spec words it. -/
def specRotZ (O : FloatOps) (angle : ℚ) : Mat4 :=
  ⟨O.fcos angle, -(O.fsin angle), 0, 0,
   O.fsin angle, O.fcos angle, 0, 0,
   0, 0, 1, 0,
   0, 0, 0, 1⟩

/-- The uniform-scale-plus-translation matrix, as the spec words it. -/
def specScaleTranslate (translation : Vec3) (scale : ℚ) : Mat4 :=
  ⟨scale, 0, 0, translation.x,
   0, scale, 0, translation.y,
   0, 0, scale, translation.z,
   0, 0, 0, 1⟩

/-! ### Camera (`src/camera.rs`) -/

/-- The `Camera` struct: eye, look-at center and up vector. -/
structure Camera where
  eye : Vec3
  center : Vec3
  up : Vec3
deriving DecidableEq

/-- `Camera::new` from `src/camera.rs`.  Note that the Rust code rebinds
`up` (`let up = right.cross(&forward).normalize();`), shadowing the `up`
argument, so the struct stores the derived orthonormalized up vector, not
the argument. -/
def Camera.new (fsqrt : ℚ → ℚ) (eye center up : Vec3) : Camera :=
  let forward := (center.sub eye).normalize fsqrt
  let right := (forward.cross up).normalize fsqrt
  let up2 := (right.cross forward).normalize fsqrt
  { eye := eye, center := center, up := up2 }

/-- A square-root oracle that agrees with the exact float square root on the
perfect squares 1 and 4 — the only norms the camera counterexample below
ever takes a square root of, so the float computation is exact there. -/
def sqrtTable (q : ℚ) : ℚ := if q = 1 then 1 else if q = 4 then 2 else 0

/-! ### Concrete sample objects used by witnesses -/

/-- The 4×4 identity matrix. -/
def Mat4.idMat : Mat4 :=
  ⟨1, 0, 0, 0, 0, 1, 0, 0, 0, 0, 1, 0, 0, 0, 0, 1⟩

/-- A concrete float-ops oracle: every operation returns 0. -/
def sampleOps : FloatOps :=
  ⟨fun _ => 0, fun _ => 0, fun _ => 0, fun _ _ => 0, fun _ _ => 0, fun _ => 0⟩

/-- Concrete uniforms: identity matrices, frame 0, zero noise. -/
def sampleUniforms : Uniforms :=
  ⟨Mat4.idMat, Mat4.idMat, Mat4.idMat, Mat4.idMat, 0,
   fun _ _ => 0, fun _ _ _ => 0⟩

/-- A concrete fragment with intensity 1. -/
def sampleFragment : Fragment :=
  ⟨⟨0, 0⟩, ⟨0, 0, 1⟩, 1, 0, ⟨0, 0, 0⟩⟩

/-- A concrete fragment with intensity 0. -/
def sampleFragment0 : Fragment :=
  ⟨⟨0, 0⟩, ⟨0, 0, 1⟩, 0, 0, ⟨0, 0, 0⟩⟩

/-- A concrete vertex. -/
def sampleVertex : Vertex :=
  ⟨⟨1, 2, 3⟩, ⟨1, 0, 0⟩, ⟨0, 0⟩, Color.new 0 0 0, ⟨0, 0, 0⟩, ⟨0, 0, 0⟩⟩

/-! ### C5: unknown shader identifiers degrade to black -/

/-- C5: dispatching any shader identifier that matches none of the ten known
names returns exactly `Color::new(0, 0, 0)` for every fragment and uniforms
bundle, instead of failing. -/
theorem unknown_shader_black (O : FloatOps) (fragment : Fragment)
    (uniforms : Uniforms) (shader_type : String)
    (h : shader_type ∉ knownShaderNames) :
    fragment_shader O fragment uniforms shader_type = Color.new 0 0 0 := by
  simp only [knownShaderNames, List.mem_cons, List.not_mem_nil, or_false,
    not_or] at h
  obtain ⟨h1, h2, h3, h4, h5, h6, h7, h8, h9, h10⟩ := h
  simp [fragment_shader, h1, h2, h3, h4, h5, h6, h7, h8, h9, h10]

/-- Witness for `unknown_shader_black`: a concrete unknown identifier. -/
theorem unknown_shader_black_witness :
    fragment_shader sampleOps sampleFragment sampleUniforms "nebula_shader"
      = Color.new 0 0 0 :=
  unknown_shader_black sampleOps sampleFragment sampleUniforms
    "nebula_shader" (by decide)

/-! ### C6: model-matrix composition order -/

/-- C6: for every translation, uniform scale and Euler-angle triple (whose
sines and cosines come from the float oracle), the model matrix equals the
uniform-scale-plus-translation matrix left-multiplied onto the rotation
composition `Rz · Ry · Rx` built from the three angles. -/
theorem model_matrix_composition (O : FloatOps) (translation : Vec3)
    (scale : ℚ) (rotation : Vec3) :
    create_model_matrix O translation scale rotation
      = (specScaleTranslate translation scale).mul
          ((specRotZ O rotation.z).mul
            ((specRotY O rotation.y).mul (specRotX O rotation.x))) := by
  simp only [create_model_matrix, specScaleTranslate, specRotZ, specRotY,
    specRotX, Mat4.mul]
  ext <;> ring

/-! ### C8: the vertex-shader normal transform -/

/-- The cofactor inverse really is a left inverse when the determinant is
nonzero. -/
theorem Mat3.inv3_mul_self (m : Mat3) (h : m.det ≠ 0) :
    m.inv3.mul m = Mat3.id := by
  have hd : m.m11 * (m.m22 * m.m33 - m.m23 * m.m32)
      - m.m12 * (m.m21 * m.m33 - m.m23 * m.m31)
      + m.m13 * (m.m21 * m.m32 - m.m22 * m.m31) ≠ 0 := by
    simpa [Mat3.det] using h
  ext <;>
    (simp only [Mat3.mul, Mat3.inv3, Mat3.id, Mat3.det]; field_simp; ring)

/-- C8: the vertex transform computes the transformed normal by applying the
transpose-inverse of the model matrix's upper-left 3×3 submatrix to the
object-space normal; when that submatrix is singular it falls back to the
identity (leaving the normal unchanged) instead of failing, and when it is
invertible the matrix used is a genuine inverse. -/
theorem vertex_shader_normal_spec (u : Uniforms) (v : Vertex) :
    ((mat4_to_mat3 u.model_matrix).transpose.det = 0 →
        (vertex_shader v u).transformed_normal = v.normal)
    ∧ ((mat4_to_mat3 u.model_matrix).transpose.det ≠ 0 →
        (mat4_to_mat3 u.model_matrix).transpose.tryInverse
            = some (mat4_to_mat3 u.model_matrix).transpose.inv3
          ∧ (mat4_to_mat3 u.model_matrix).transpose.inv3.mul
              (mat4_to_mat3 u.model_matrix).transpose = Mat3.id
          ∧ (vertex_shader v u).transformed_normal
              = (mat4_to_mat3 u.model_matrix).transpose.inv3.mulVec v.normal) := by
  constructor
  · intro h
    simp only [vertex_shader, Mat3.tryInverse, if_pos h, Option.getD_none]
    ext <;> (simp only [Mat3.mulVec, Mat3.id]; ring)
  · intro h
    refine ⟨by simp [Mat3.tryInverse, h], Mat3.inv3_mul_self _ h, ?_⟩
    simp only [vertex_shader, Mat3.tryInverse, if_neg h, Option.getD_some]

/-- Witness for `vertex_shader_normal_spec` at the identity model matrix
(determinant 1, so the invertible branch is exercised). -/
theorem vertex_shader_normal_spec_witness :
    ((mat4_to_mat3 sampleUniforms.model_matrix).transpose.det = 0 →
        (vertex_shader sampleVertex sampleUniforms).transformed_normal
          = sampleVertex.normal)
    ∧ ((mat4_to_mat3 sampleUniforms.model_matrix).transpose.det ≠ 0 →
        (mat4_to_mat3 sampleUniforms.model_matrix).transpose.tryInverse
            = some (mat4_to_mat3 sampleUniforms.model_matrix).transpose.inv3
          ∧ (mat4_to_mat3 sampleUniforms.model_matrix).transpose.inv3.mul
              (mat4_to_mat3 sampleUniforms.model_matrix).transpose = Mat3.id
          ∧ (vertex_shader sampleVertex sampleUniforms).transformed_normal
              = (mat4_to_mat3 sampleUniforms.model_matrix).transpose.inv3.mulVec
                  sampleVertex.normal) :=
  vertex_shader_normal_spec sampleUniforms sampleVertex

/-! ### C9: determinism of the seeded dithering shader -/

/-- C9: the lines shader is a deterministic function of the frame counter
and the fragment's interpolated position (plus its lighting intensity):
any two invocations agreeing on those values — even with different noise
oracles, matrices, normals or depths — return the identical color; the color
is obtained by seeding the draw with `time * y * x` and thresholding it at
50, picking between exactly the two fixed colors. -/
theorem lines_shader_deterministic (O : FloatOps) (f1 f2 : Fragment)
    (u1 u2 : Uniforms)
    (hx : f1.vertex_position.x = f2.vertex_position.x)
    (hy : f1.vertex_position.y = f2.vertex_position.y)
    (hi : f1.intensity = f2.intensity)
    (ht : u1.time = u2.time) :
    lines_shader O f1 u1 = lines_shader O f2 u2
    ∧ lines_shader O f1 u1
        = (if O.rngDraw (f32AbsToU64 ((u1.time : ℚ)
            * f1.vertex_position.y * f1.vertex_position.x)) < 50
           then Color.new 92 137 182
           else Color.new 188 67 67).mul f1.intensity
    ∧ (lines_shader O f1 u1 = (Color.new 92 137 182).mul f1.intensity
       ∨ lines_shader O f1 u1 = (Color.new 188 67 67).mul f1.intensity) := by
  refine ⟨by simp only [lines_shader, hx, hy, hi, ht], rfl, ?_⟩
  by_cases hc : O.rngDraw (f32AbsToU64 ((u1.time : ℚ)
      * f1.vertex_position.y * f1.vertex_position.x)) < 50
  · left
    simp only [lines_shader, if_pos hc]
  · right
    simp only [lines_shader, if_neg hc]

/-- Witness for `lines_shader_deterministic` at concrete inputs. -/
theorem lines_shader_deterministic_witness :
    lines_shader sampleOps sampleFragment sampleUniforms
        = lines_shader sampleOps sampleFragment sampleUniforms
    ∧ lines_shader sampleOps sampleFragment sampleUniforms
        = (if sampleOps.rngDraw (f32AbsToU64 ((sampleUniforms.time : ℚ)
            * sampleFragment.vertex_position.y
            * sampleFragment.vertex_position.x)) < 50
           then Color.new 92 137 182
           else Color.new 188 67 67).mul sampleFragment.intensity
    ∧ (lines_shader sampleOps sampleFragment sampleUniforms
          = (Color.new 92 137 182).mul sampleFragment.intensity
       ∨ lines_shader sampleOps sampleFragment sampleUniforms
          = (Color.new 188 67 67).mul sampleFragment.intensity) :=
  lines_shader_deterministic sampleOps sampleFragment sampleFragment
    sampleUniforms sampleUniforms rfl rfl rfl rfl

/-! ### C7: intensity as a final multiplicative attenuation -/

theorem cl_nonneg (q : ℚ) : 0 ≤ cl q := le_max_left 0 _

theorem cl_le_255 (q : ℚ) : cl q ≤ 255 :=
  max_le (by norm_num) (min_le_right q 255)

theorem cl_eq_self {q : ℚ} (h0 : 0 ≤ q) (h1 : q ≤ 255) : cl q = q := by
  rw [cl, min_eq_left h1, max_eq_right h0]

theorem Color.new_inRange (r g b : ℚ) : (Color.new r g b).InRange :=
  ⟨cl_nonneg _, cl_le_255 _, cl_nonneg _, cl_le_255 _, cl_nonneg _, cl_le_255 _⟩

theorem Color.lerp_inRange (c d : Color) (t : ℚ) : (c.lerp d t).InRange :=
  ⟨cl_nonneg _, cl_le_255 _, cl_nonneg _, cl_le_255 _, cl_nonneg _, cl_le_255 _⟩

theorem Color.ite_inRange (P : Prop) [Decidable P] {c1 c2 : Color}
    (h1 : c1.InRange) (h2 : c2.InRange) : (if P then c1 else c2).InRange := by
  split <;> assumption

/-- Attenuating by 1 is the identity on in-range colors. -/
theorem Color.mul_one_ofInRange (c : Color) (h : c.InRange) : c.mul 1 = c := by
  obtain ⟨h1, h2, h3, h4, h5, h6⟩ := h
  simp only [Color.mul, mul_one]
  rw [cl_eq_self h1 h2, cl_eq_self h3 h4, cl_eq_self h5 h6]

/-- Two successive clamped attenuations collapse to one when the first
factor keeps the channels in range. -/
theorem Color.mul_mul (c : Color) (a b : ℚ) (h : c.InRange) (ha0 : 0 ≤ a)
    (ha1 : a ≤ 1) : (c.mul a).mul b = c.mul (a * b) := by
  obtain ⟨h1, h2, h3, h4, h5, h6⟩ := h
  have key : ∀ r, 0 ≤ r → r ≤ 255 → cl (cl (r * a) * b) = cl (r * (a * b)) := by
    intro r hr0 hr1
    have hra : cl (r * a) = r * a :=
      cl_eq_self (mul_nonneg hr0 ha0) (by nlinarith)
    rw [hra, mul_assoc]
  simp only [Color.mul]
  rw [key _ h1 h2, key _ h3 h4, key _ h5 h6]

/-- The float remainder of a nonnegative value by a positive modulus lies in
`[0, b)`. -/
theorem fmod_nonneg_lt (a b : ℚ) (ha : 0 ≤ a) (hb : 0 < b) :
    0 ≤ fmod a b ∧ fmod a b < b := by
  have hb' : b ≠ 0 := ne_of_gt hb
  have hq : 0 ≤ a / b := div_nonneg ha hb.le
  have ht : ratTrunc (a / b) = (⌊a / b⌋ : ℚ) := if_pos hq
  rw [fmod, ht]
  have h1 : (0 : ℚ) ≤ a / b - ⌊a / b⌋ := by
    rw [Int.self_sub_floor]
    exact Int.fract_nonneg (a / b)
  have h2 : a / b - ⌊a / b⌋ < 1 := by
    rw [Int.self_sub_floor]
    exact Int.fract_lt_one (a / b)
  have key : a - b * ⌊a / b⌋ = b * (a / b - ⌊a / b⌋) := by
    field_simp
  rw [key]
  constructor
  · exact mul_nonneg hb.le h1
  · calc b * (a / b - ⌊a / b⌋) < b * 1 := mul_lt_mul_of_pos_left h2 hb
      _ = b := mul_one b

set_option maxRecDepth 8192 in
/-- Counterexample to C7 as stated: the lava shader does NOT apply
`fragment.intensity` as a final multiplicative attenuation.  At a concrete
fragment with intensity 0 (zero noise and sine oracles, frame 0) the lava
shader returns a bright nonzero color, whereas attenuating its
intensity-1 output by the fragment's intensity 0 would give black. -/
theorem lava_shader_breaks_attenuation :
    lava_shader sampleOps sampleFragment0 sampleUniforms
      ≠ (lava_shader sampleOps { sampleFragment0 with intensity := 1 }
          sampleUniforms).mul sampleFragment0.intensity := by
  norm_num [lava_shader, sampleOps, sampleUniforms, sampleFragment0,
    Color.lerp, Color.mul, Color.add, Color.new, cl, min_def, max_def,
    Color.mk.injEq]

/-- C7 (amended): every shading routine reachable from the dispatch applies
`fragment.intensity` as a final multiplicative attenuation to its computed
color — formalized as: the output equals the shader's output at intensity 1,
attenuated by the fragment's intensity — EXCEPT the spaceship shader (which
replaces ambient intensity by its own diffuse/specular lighting, as the
claim already allows) and the lava shader (which omits the intensity factor
entirely; see the counterexample).  The square-root oracle is assumed
nonnegative on nonnegative inputs, as the float `sqrt` is. -/
theorem shader_intensity_attenuation (O : FloatOps) (f : Fragment)
    (u : Uniforms) (hsq : ∀ q, 0 ≤ q → 0 ≤ O.fsqrt q) :
    lines_shader O f u
        = (lines_shader O { f with intensity := 1 } u).mul f.intensity
    ∧ dalmata_shader O f u
        = (dalmata_shader O { f with intensity := 1 } u).mul f.intensity
    ∧ cloud_shader O f u
        = (cloud_shader O { f with intensity := 1 } u).mul f.intensity
    ∧ cellular_shader O f u
        = (cellular_shader O { f with intensity := 1 } u).mul f.intensity
    ∧ gradient_shader O f u
        = (gradient_shader O { f with intensity := 1 } u).mul f.intensity
    ∧ continents_shader O f u
        = (continents_shader O { f with intensity := 1 } u).mul f.intensity
    ∧ rings_shader O f u
        = (rings_shader O { f with intensity := 1 } u).mul f.intensity
    ∧ spiral_shader O f u
        = (spiral_shader O { f with intensity := 1 } u).mul f.intensity := by
  refine ⟨?_, ?_, ?_, ?_, ?_, ?_, ?_, ?_⟩
  · simp only [lines_shader]
    rw [Color.mul_one_ofInRange _ (Color.ite_inRange _
      (Color.new_inRange _ _ _) (Color.new_inRange _ _ _))]
  · simp only [dalmata_shader]
    rw [Color.mul_one_ofInRange _ (Color.ite_inRange _
      (Color.new_inRange _ _ _) (Color.new_inRange _ _ _))]
  · simp only [cloud_shader]
    rw [Color.mul_one_ofInRange _ (Color.ite_inRange _
      (Color.new_inRange _ _ _) (Color.new_inRange _ _ _))]
  · simp only [cellular_shader]
    rw [Color.mul_one_ofInRange _ (Color.ite_inRange _
      (Color.new_inRange _ _ _) (Color.ite_inRange _
        (Color.new_inRange _ _ _) (Color.ite_inRange _
          (Color.new_inRange _ _ _) (Color.new_inRange _ _ _))))]
  · simp only [gradient_shader]
    rw [Color.mul_one_ofInRange _ (Color.lerp_inRange _ _ _)]
  · simp only [continents_shader]
    rw [Color.mul_one_ofInRange _ (Color.ite_inRange _
      (Color.new_inRange _ _ _) (Color.new_inRange _ _ _))]
  · simp only [rings_shader, mul_one]
    have hd0 : 0 ≤ O.fsqrt (f.vertex_position.x * f.vertex_position.x
        + f.vertex_position.y * f.vertex_position.y) :=
      hsq _ (by nlinarith [mul_self_nonneg f.vertex_position.x, mul_self_nonneg f.vertex_position.y])
    have hfm := fmod_nonneg_lt (O.fsqrt (f.vertex_position.x
        * f.vertex_position.x + f.vertex_position.y * f.vertex_position.y))
      0.6 hd0 (by norm_num)
    have hnd : 0 ≤ fmod (O.fsqrt (f.vertex_position.x
        * f.vertex_position.x + f.vertex_position.y * f.vertex_position.y))
        0.6 / 0.3 := div_nonneg hfm.1 (by norm_num)
    rw [Color.mul_mul _ _ _ (Color.ite_inRange _ (Color.new_inRange _ _ _)
      (Color.ite_inRange _ (Color.new_inRange _ _ _)
        (Color.new_inRange _ _ _))) ?op0 ?op1]
    case op0 => split <;> [linarith; exact le_refl 0]
    case op1 => split <;> [linarith; norm_num]
  · simp only [spiral_shader]
    rw [Color.mul_one_ofInRange _ (Color.ite_inRange _
      (Color.new_inRange _ _ _) (Color.new_inRange _ _ _))]

/-- Witness for `shader_intensity_attenuation` at concrete inputs (the
all-zero oracle trivially keeps square roots nonnegative). -/
theorem shader_intensity_attenuation_witness :
    lines_shader sampleOps sampleFragment sampleUniforms
        = (lines_shader sampleOps { sampleFragment with intensity := 1 }
            sampleUniforms).mul sampleFragment.intensity
    ∧ dalmata_shader sampleOps sampleFragment sampleUniforms
        = (dalmata_shader sampleOps { sampleFragment with intensity := 1 }
            sampleUniforms).mul sampleFragment.intensity
    ∧ cloud_shader sampleOps sampleFragment sampleUniforms
        = (cloud_shader sampleOps { sampleFragment with intensity := 1 }
            sampleUniforms).mul sampleFragment.intensity
    ∧ cellular_shader sampleOps sampleFragment sampleUniforms
        = (cellular_shader sampleOps { sampleFragment with intensity := 1 }
            sampleUniforms).mul sampleFragment.intensity
    ∧ gradient_shader sampleOps sampleFragment sampleUniforms
        = (gradient_shader sampleOps { sampleFragment with intensity := 1 }
            sampleUniforms).mul sampleFragment.intensity
    ∧ continents_shader sampleOps sampleFragment sampleUniforms
        = (continents_shader sampleOps { sampleFragment with intensity := 1 }
            sampleUniforms).mul sampleFragment.intensity
    ∧ rings_shader sampleOps sampleFragment sampleUniforms
        = (rings_shader sampleOps { sampleFragment with intensity := 1 }
            sampleUniforms).mul sampleFragment.intensity
    ∧ spiral_shader sampleOps sampleFragment sampleUniforms
        = (spiral_shader sampleOps { sampleFragment with intensity := 1 }
            sampleUniforms).mul sampleFragment.intensity :=
  shader_intensity_attenuation sampleOps sampleFragment sampleUniforms
    (fun _ _ => le_refl 0)

/-! ### C10: what `Camera::new` stores -/

/-- Counterexample to C10 as stated: with `eye = (0,0,1)`,
`center = (0,0,0)` and `up = (0,2,0)` (every norm involved is a perfect
square — 1, 4, 1 — so the float square root is exact and `sqrtTable` gives
its exact values), the stored `up` field is the derived orthonormalized
vector `(0,1,0)`, not the argument `(0,2,0)`: the Rust binding
`let up = right.cross(&forward).normalize();` shadows the `up` parameter
before the struct is built. -/
theorem camera_new_up_not_argument :
    (Camera.new sqrtTable ⟨0, 0, 1⟩ ⟨0, 0, 0⟩ ⟨0, 2, 0⟩).up
      ≠ (⟨0, 2, 0⟩ : Vec3) := by
  norm_num [Camera.new, Vec3.normalize, Vec3.sub, Vec3.cross, Vec3.dot,
    sqrtTable, Vec3.mk.injEq]

/-- C10 (amended): `Camera::new` stores the supplied `eye` and `center`
unchanged, but its `up` field stores the derived orthonormalized up vector
`normalize(normalize(normalize(center − eye) × up) × forward)` — the derived
`forward` and `right` are not persisted, and the `up` argument itself is
persisted only through that derivation. -/
theorem camera_new_stores_spec (fsqrt : ℚ → ℚ) (eye center up : Vec3) :
    (Camera.new fsqrt eye center up).eye = eye
    ∧ (Camera.new fsqrt eye center up).center = center
    ∧ (Camera.new fsqrt eye center up).up
        = Vec3.normalize fsqrt
            ((Vec3.normalize fsqrt
              ((Vec3.normalize fsqrt (center.sub eye)).cross up)).cross
                (Vec3.normalize fsqrt (center.sub eye))) :=
  ⟨rfl, rfl, rfl⟩

end SpaceTravel
